import Mathlib

/-!
# Verification of the smart-transport derivation core

Shallow embedding of the geometric and temporal derivation layer of the
smart-transport planning tool: great-circle distance, route-length and
cumulative-distance queries, trip-timetable generation, trip-pair
add/delete operations, nearest-stop snapping and stop/area coverage.

Numeric code is embedded over `ℝ`; list- and string-manipulating code is
embedded with plain computable definitions.  External collaborators
(the map widget's metric, the polygon-clipping library) enter only as
parameters constrained by the properties the specification states for
them.
-/

set_option autoImplicit false

namespace SmartTransport

/-! ## Basic geographic and time primitives -/

/-- A geographic coordinate pair, as handed around by the map layer. -/
structure LatLng where
  lat : ℝ
  lng : ℝ

/-- JS `Math.trunc`-style truncation toward zero (used by the JS `%`). -/
noncomputable def jsTrunc (x : ℝ) : ℤ :=
  if 0 ≤ x then ⌊x⌋ else ⌈x⌉

/-- JS remainder operator `a % b` (sign of the dividend). -/
noncomputable def jsRem (a b : ℝ) : ℝ :=
  a - b * jsTrunc (a / b)

/-- JS `Math.round`: nearest integer, halves toward `+∞`. -/
noncomputable def jsRound (x : ℝ) : ℤ :=
  ⌊x + 1 / 2⌋

/-- JS `String.prototype.padStart(2, '0')` for the strings produced by
`toString` on an integer (always nonempty). -/
def padStart2 (s : String) : String :=
  if 2 ≤ s.length then s
  else if s.length = 1 then "0" ++ s
  else "00"

/-- `formatTimeHHMM` (bus-line detail page): minutes since midnight to a
zero-padded `"HH:MM"` string, flooring hours and minutes-within-hour. -/
noncomputable def formatTimeHHMM (minutes : ℝ) : String :=
  let hours : ℤ := ⌊minutes / 60⌋
  let mins : ℤ := ⌊jsRem minutes 60⌋
  padStart2 (toString hours) ++ ":" ++ padStart2 (toString mins)

/-- Decimal value of a digit character (the digits JS `Number` reads on
this code's well-formed `"HH:MM"` strings). -/
def charDigit (c : Char) : ℕ := c.toNat - 48

/-- Value of a digit string, as JS `Number` yields on the nonnegative
integral fields this code produces and consumes. -/
def digitsToNat (l : List Char) : ℕ :=
  l.foldl (fun acc c => 10 * acc + charDigit c) 0

/-- `parseTimeToMinutes`: parse `"HH:MM"` back to minutes
(`time.split(':').map(Number)`, then `hours * 60 + minutes`), embedded
over the string's character list. -/
def parseTimeToMinutes (time : String) : ℤ :=
  match (time.toList.splitOn ':').map (fun t => (digitsToNat t : ℤ)) with
  | [hours, minutes] => hours * 60 + minutes
  | _ => 0

/-- `toRadians` (bus-line detail page). -/
noncomputable def toRadians (degrees : ℝ) : ℝ :=
  degrees * (Real.pi / 180)

/-- JS `Math.atan2`. -/
noncomputable def atan2 (y x : ℝ) : ℝ :=
  if 0 < x then Real.arctan (y / x)
  else if x < 0 then
    (if 0 ≤ y then Real.arctan (y / x) + Real.pi
     else Real.arctan (y / x) - Real.pi)
  else
    (if 0 < y then Real.pi / 2
     else if y < 0 then -(Real.pi / 2)
     else 0)

/-- `haversineDistance` (bus-line detail page): great-circle distance in
meters between two coordinate pairs, Earth radius 6 371 000 m. -/
noncomputable def haversineDistance (lat1 lon1 lat2 lon2 : ℝ) : ℝ :=
  let R : ℝ := 6371000
  let dLat := toRadians (lat2 - lat1)
  let dLon := toRadians (lon2 - lon1)
  let a :=
    Real.sin (dLat / 2) * Real.sin (dLat / 2) +
      Real.cos (toRadians lat1) * Real.cos (toRadians lat2) *
        Real.sin (dLon / 2) * Real.sin (dLon / 2)
  let c := 2 * atan2 (Real.sqrt a) (Real.sqrt (1 - a))
  R * c

/-! ## Auxiliary facts about the primitives -/

theorem toRadians_neg (x : ℝ) : toRadians (-x) = -toRadians x := by
  unfold toRadians; ring

theorem toRadians_zero : toRadians 0 = 0 := by
  unfold toRadians; ring

theorem toRadians_180 : toRadians 180 = Real.pi := by
  unfold toRadians
  field_simp

theorem toRadians_90 : toRadians 90 = Real.pi / 2 := by
  unfold toRadians
  field_simp
  ring

theorem atan2_zero_one : atan2 0 1 = 0 := by
  unfold atan2
  norm_num

theorem atan2_one_zero : atan2 1 0 = Real.pi / 2 := by
  unfold atan2
  norm_num

/-! ## Route geometry (bus-line detail page) -/

/-- A point of a route's drawn geometry, optionally tagged with the id of
the stop it was snapped to. -/
structure RoutePoint where
  latLng : LatLng
  stopId : Option ℕ

/-- Haversine distances of the consecutive point pairs of a route. -/
noncomputable def segmentDistances (line : List RoutePoint) : List ℝ :=
  (line.zip line.tail).map fun pq =>
    haversineDistance pq.1.latLng.lat pq.1.latLng.lng pq.2.latLng.lat pq.2.latLng.lng

/-- `getLineLength`: total route length in meters; 0 for fewer than two
points. -/
noncomputable def getLineLength (line : List RoutePoint) : ℝ :=
  if line.length < 2 then 0
  else (segmentDistances line).sum

/-- The `reverse = false` pass of `getDistanceFromStart` (the self-call
the reverse branch makes): distance from the first point up to the first
point tagged `stopId`; 0 when the route has fewer than two points or the
stop is not found. -/
noncomputable def getDistanceFromStartF (line : List RoutePoint) (stopId : ℕ) : ℝ :=
  if line.length < 2 then 0
  else
    match line.findIdx? (fun p => p.stopId == some stopId) with
    | none => 0
    | some stopPointIndex => ((segmentDistances line).take stopPointIndex).sum

/-- `getDistanceFromStart`: cumulative distance from the start of the
route to the stop; the reverse direction is `totalLength - forward`. -/
noncomputable def getDistanceFromStart (line : List RoutePoint) (stopId : ℕ)
    (reverse : Bool) : ℝ :=
  if line.length < 2 then 0
  else if reverse then getLineLength line - getDistanceFromStartF line stopId
  else getDistanceFromStartF line stopId

/-- `getTravelTime`: cumulative travel time in minutes at the fixed
assumed speed of 21 km/h. -/
noncomputable def getTravelTime (line : List RoutePoint) (stopId : ℕ)
    (reverse : Bool) : ℝ :=
  let distanceMeters := getDistanceFromStart line stopId reverse
  let distanceKm := distanceMeters / 1000
  let speedKmh : ℝ := 21
  let timeHours := distanceKm / speedKmh
  let timeMinutes := timeHours * 60
  timeMinutes

/-! ## Haversine distance: symmetry and zeros (C9) -/

theorem haversineDistance_symm (lat1 lon1 lat2 lon2 : ℝ) :
    haversineDistance lat1 lon1 lat2 lon2 = haversineDistance lat2 lon2 lat1 lon1 := by
  simp only [haversineDistance]
  have h1 : toRadians (lat1 - lat2) / 2 = -(toRadians (lat2 - lat1) / 2) := by
    simp only [toRadians]; ring
  have h2 : toRadians (lon1 - lon2) / 2 = -(toRadians (lon2 - lon1) / 2) := by
    simp only [toRadians]; ring
  rw [h1, h2, Real.sin_neg, Real.sin_neg]
  ring_nf

theorem haversineDistance_self (lat lon : ℝ) :
    haversineDistance lat lon lat lon = 0 := by
  simp only [haversineDistance]
  have h1 : toRadians (lat - lat) = 0 := by rw [sub_self, toRadians_zero]
  have h2 : toRadians (lon - lon) = 0 := by rw [sub_self, toRadians_zero]
  rw [h1, h2]
  norm_num [Real.sqrt_one, atan2_zero_one]

theorem haversine_0_180 : haversineDistance 0 0 0 180 = 6371000 * Real.pi := by
  simp only [haversineDistance]
  have h1 : toRadians (0 - 0) = 0 := by norm_num [toRadians]
  have h2 : toRadians (180 - 0) = Real.pi := by norm_num [toRadians_180]
  rw [h1, h2, toRadians_zero]
  norm_num [Real.sin_pi_div_two, Real.sqrt_one, atan2_one_zero]
  ring

/-- C9 (amended): `distanceMeters` (haversineDistance) is symmetric, and
returns 0 whenever the two coordinate pairs are equal.  (The converse —
0 only for equal pairs — is false; see the counterexample.) -/
theorem distanceMeters_spec (lat1 lon1 lat2 lon2 : ℝ) :
    haversineDistance lat1 lon1 lat2 lon2 = haversineDistance lat2 lon2 lat1 lon1 ∧
      (lat1 = lat2 ∧ lon1 = lon2 → haversineDistance lat1 lon1 lat2 lon2 = 0) := by
  refine ⟨haversineDistance_symm lat1 lon1 lat2 lon2, ?_⟩
  rintro ⟨rfl, rfl⟩
  exact haversineDistance_self lat1 lon1

theorem distanceMeters_spec_witness :
    haversineDistance 1 2 1 2 = haversineDistance 1 2 1 2 ∧
      haversineDistance 1 2 1 2 = 0 :=
  ⟨(distanceMeters_spec 1 2 1 2).1, (distanceMeters_spec 1 2 1 2).2 ⟨rfl, rfl⟩⟩

/-- C9 counterexample: the two distinct coordinate pairs (90, 0) and
(90, 10) — both at the north pole's latitude — have haversine distance
0, so `distanceMeters(a,b) = 0` does not imply `a = b`. -/
theorem distanceMeters_zero_counterexample :
    haversineDistance 90 0 90 10 = 0 ∧
      (((90 : ℝ), (0 : ℝ)) : ℝ × ℝ) ≠ ((90 : ℝ), (10 : ℝ)) := by
  constructor
  · simp only [haversineDistance]
    have h1 : toRadians (90 - 90) = 0 := by norm_num [toRadians]
    have h2 : Real.cos (toRadians 90) = 0 := by
      rw [toRadians_90, Real.cos_pi_div_two]
    rw [h1, h2]
    norm_num [Real.sqrt_one, atan2_zero_one]
  · intro h
    have h2 := congrArg Prod.snd h
    norm_num at h2

/-! ## Cumulative distance along a route (C1) -/

/-- C1 (amended): `cumulativeDistance` returns 0 for routes with fewer
than two points (both directions) and for an unfound stop in the forward
direction; on a route with at least two points the reverse distance is
exactly the total length minus the forward distance, so forward and
reverse cumulative distances always sum to the total length.  (For an
unfound stop in the reverse direction it returns the total length, not
0; see the counterexample.) -/
theorem cumulativeDistance_spec :
    (∀ (line : List RoutePoint) (stopId : ℕ) (reverse : Bool),
        line.length < 2 → getDistanceFromStart line stopId reverse = 0) ∧
    (∀ (line : List RoutePoint) (stopId : ℕ),
        line.findIdx? (fun p => p.stopId == some stopId) = none →
        getDistanceFromStart line stopId false = 0) ∧
    (∀ (line : List RoutePoint) (stopId : ℕ), 2 ≤ line.length →
        getDistanceFromStart line stopId true =
          getLineLength line - getDistanceFromStart line stopId false ∧
        getDistanceFromStart line stopId false + getDistanceFromStart line stopId true =
          getLineLength line) := by
  refine ⟨?_, ?_, ?_⟩
  · intro line stopId reverse h
    simp [getDistanceFromStart, h]
  · intro line stopId h
    by_cases hl : line.length < 2 <;>
      simp [getDistanceFromStart, getDistanceFromStartF, h, hl]
  · intro line stopId h
    have hl : ¬ line.length < 2 := by omega
    simp only [getDistanceFromStart, if_neg hl, if_true]
    rw [if_neg Bool.false_ne_true]
    exact ⟨rfl, by ring⟩

/-- A two-point route (0°,0°)–(0°,180°) whose points carry no stop tag. -/
noncomputable def lineCEx : List RoutePoint :=
  [⟨⟨0, 0⟩, none⟩, ⟨⟨0, 180⟩, none⟩]

theorem cumulativeDistance_spec_witness :
    getDistanceFromStart [] 3 true = 0 ∧
      getDistanceFromStart lineCEx 7 false = 0 ∧
      getDistanceFromStart lineCEx 7 false + getDistanceFromStart lineCEx 7 true =
        getLineLength lineCEx :=
  ⟨cumulativeDistance_spec.1 [] 3 true (by norm_num),
   cumulativeDistance_spec.2.1 lineCEx 7 rfl,
   (cumulativeDistance_spec.2.2 lineCEx 7 (by norm_num [lineCEx])).2⟩

/-- C1 counterexample: on the two-point route `lineCEx`, stop id 5 tags
no point, yet the reverse-direction cumulative distance is the route's
(nonzero) total length rather than 0. -/
theorem cumulativeDistance_reverse_counterexample :
    lineCEx.findIdx? (fun p => p.stopId == some 5) = none ∧
      getDistanceFromStart lineCEx 5 true ≠ 0 := by
  refine ⟨rfl, ?_⟩
  have hlen : ¬ lineCEx.length < 2 := by norm_num [lineCEx]
  have hfind : lineCEx.findIdx? (fun p => p.stopId == some 5) = none := rfl
  have hseg : segmentDistances lineCEx = [haversineDistance 0 0 0 180] := rfl
  have hval : getDistanceFromStart lineCEx 5 true = 6371000 * Real.pi := by
    simp only [getDistanceFromStart, getDistanceFromStartF, getLineLength,
      if_neg hlen, if_true, hfind, hseg]
    simp [haversine_0_180]
  rw [hval]
  have hpi := Real.pi_pos
  positivity

/-! ## Schedule data model (bus-line detail page) -/

/-- A stop as the bus-line detail page sees it (fields the schedule
engine reads). -/
structure BusStopData where
  id : ℕ
  name : String
  latLng : LatLng

instance : Inhabited BusStopData := ⟨⟨0, "", ⟨0, 0⟩⟩⟩

/-- One `{stopId, time}` entry of a trip's timetable. -/
structure TimeEntry where
  stopId : ℕ
  time : String
deriving DecidableEq

instance : Inhabited TimeEntry := ⟨⟨0, ""⟩⟩

/-- `TripSchedule`: direction label, per-stop times, end of the break
after the trip. -/
structure TripSchedule where
  direction : String
  times : List TimeEntry
  breakEndTime : String
deriving DecidableEq

instance : Inhabited TripSchedule := ⟨⟨"", [], ""⟩⟩

/-- `Vehicle`: a vehicle and its (forward/reverse alternating) trips. -/
structure Vehicle where
  id : String
  name : String
  trips : List TripSchedule
deriving DecidableEq

/-- `VehicleSchedule`: all vehicles of one line. -/
structure VehicleSchedule where
  lineId : ℕ
  vehicles : List Vehicle
deriving DecidableEq

/-- `getTravelTimeBetweenStops`: travel time between two consecutive
stops as the absolute difference of their cumulative travel times. -/
noncomputable def getTravelTimeBetweenStops (line : List RoutePoint)
    (fromStopId toStopId : ℕ) (reverse : Bool) : ℝ :=
  let fromTime := getTravelTime line fromStopId reverse
  let toTime := getTravelTime line toStopId reverse
  |toTime - fromTime|

/-- The body of `generateTrip`'s loop for the stops after the first:
emits one time entry per stop, accumulating travel times, and returns
the entries together with the final accumulated time. -/
noncomputable def generateTripTimes (line : List RoutePoint) (reverse : Bool) :
    BusStopData → List BusStopData → ℝ → List TimeEntry × ℝ
  | _, [], currentTime => ([], currentTime)
  | prevStop, stop :: rest, currentTime =>
    let t := currentTime + getTravelTimeBetweenStops line prevStop.id stop.id reverse
    let tail := generateTripTimes line reverse stop rest t
    (⟨stop.id, formatTimeHHMM t⟩ :: tail.1, tail.2)

/-- `generateTrip`: walk the given stop order from `startTimeMinutes`,
emitting a formatted time per stop and a break-end time 15 minutes after
the last stop.  (The source indexes `stops[0]` unconditionally; the
empty-stop-list case below is unreachable through its callers, which all
guard on a non-empty stop list.) -/
noncomputable def generateTrip (line : List RoutePoint) (stops : List BusStopData)
    (startTimeMinutes : ℝ) (reverse : Bool) : TripSchedule :=
  match stops with
  | [] => ⟨"", [], formatTimeHHMM (startTimeMinutes + 15)⟩
  | s0 :: rest =>
    let tail := generateTripTimes line reverse s0 rest startTimeMinutes
    let firstStopId := s0.id
    let lastStopId := (rest.getLastD s0).id
    ⟨toString firstStopId ++ "->" ++ toString lastStopId,
      ⟨s0.id, formatTimeHHMM startTimeMinutes⟩ :: tail.1,
      formatTimeHHMM (tail.2 + 15)⟩

/-! ## C8: generateTrip against the accumulated-time specification -/

/-- The accumulated minute value at the i-th stop of a trip, as the
specification describes it: the start time at index 0, and at each later
index the previous value plus the absolute difference of the two stops'
cumulative travel times. -/
noncomputable def accTime (line : List RoutePoint) (reverse : Bool)
    (stops : List BusStopData) (start : ℝ) : ℕ → ℝ
  | 0 => start
  | n + 1 =>
    accTime line reverse stops start n +
      |getTravelTime line (stops.getD (n + 1) default).id reverse -
        getTravelTime line (stops.getD n default).id reverse|

theorem accTime_cons_shift (line : List RoutePoint) (reverse : Bool)
    (prev s : BusStopData) (tl : List BusStopData) (start : ℝ) :
    ∀ k, accTime line reverse (s :: tl) (accTime line reverse (prev :: s :: tl) start 1) k =
      accTime line reverse (prev :: s :: tl) start (k + 1) := by
  intro k
  induction k with
  | zero => rfl
  | succ n ih =>
    show accTime line reverse (s :: tl) _ n + _ = accTime line reverse (prev :: s :: tl) start (n + 1) + _
    rw [ih]
    congr 1

theorem generateTripTimes_spec (line : List RoutePoint) (reverse : Bool) :
    ∀ (rest : List BusStopData) (prev : BusStopData) (t : ℝ),
      (generateTripTimes line reverse prev rest t).1.length = rest.length ∧
      (∀ i, i < rest.length →
        (generateTripTimes line reverse prev rest t).1.getD i default =
          ⟨(rest.getD i default).id,
            formatTimeHHMM (accTime line reverse (prev :: rest) t (i + 1))⟩) ∧
      (generateTripTimes line reverse prev rest t).2 =
        accTime line reverse (prev :: rest) t rest.length := by
  intro rest
  induction rest with
  | nil =>
    intro prev t
    exact ⟨rfl, fun i hi => absurd hi (Nat.not_lt_zero i), rfl⟩
  | cons s tl ih =>
    intro prev t
    have hacc1 : t + getTravelTimeBetweenStops line prev.id s.id reverse =
        accTime line reverse (prev :: s :: tl) t 1 := by
      simp [accTime, getTravelTimeBetweenStops]
    obtain ⟨ihlen, ihget, ihfin⟩ :=
      ih s (t + getTravelTimeBetweenStops line prev.id s.id reverse)
    refine ⟨by simpa [generateTripTimes] using ihlen, ?_, ?_⟩
    · intro i hi
      match i with
      | 0 =>
        show (⟨s.id, formatTimeHHMM (t + getTravelTimeBetweenStops line prev.id s.id reverse)⟩ : TimeEntry) = _
        rw [hacc1]
        rfl
      | Nat.succ j =>
        have hj : j < tl.length := by
          simpa using hi
        have := ihget j hj
        show (generateTripTimes line reverse s tl
            (t + getTravelTimeBetweenStops line prev.id s.id reverse)).1.getD j default = _
        rw [this, hacc1, accTime_cons_shift]
        rfl
    · show (generateTripTimes line reverse s tl
          (t + getTravelTimeBetweenStops line prev.id s.id reverse)).2 = _
      rw [ihfin, hacc1, accTime_cons_shift]
      simp

/-- C8: for a non-empty ordered stop list, `generateTrip` emits one time
entry per stop in order; the entry at index `i` carries the i-th stop's
id and the zero-padded `"HH:MM"` floor-formatting of the accumulated
minute value (start time at index 0, previous value plus the absolute
difference of cumulative travel times afterwards), and the break-end
time is the formatting of the last accumulated value plus 15 minutes. -/
theorem generateTrip_spec (line : List RoutePoint) (stops : List BusStopData)
    (start : ℝ) (reverse : Bool) (hne : stops ≠ []) :
    (generateTrip line stops start reverse).times.length = stops.length ∧
    (∀ i, i < stops.length →
      (generateTrip line stops start reverse).times.getD i default =
        ⟨(stops.getD i default).id,
          formatTimeHHMM (accTime line reverse stops start i)⟩) ∧
    (generateTrip line stops start reverse).breakEndTime =
      formatTimeHHMM (accTime line reverse stops start (stops.length - 1) + 15) := by
  match stops, hne with
  | s0 :: rest, _ =>
    obtain ⟨hlen, hget, hfin⟩ := generateTripTimes_spec line reverse rest s0 start
    refine ⟨?_, ?_, ?_⟩
    · simpa [generateTrip] using hlen
    · intro i hi
      match i with
      | 0 => rfl
      | Nat.succ j =>
        have hj : j < rest.length := by simpa using hi
        show (generateTripTimes line reverse s0 rest start).1.getD j default = _
        rw [hget j hj]
        rfl
    · show formatTimeHHMM ((generateTripTimes line reverse s0 rest start).2 + 15) = _
      rw [hfin]
      simp

theorem generateTrip_spec_witness :
    ((fun g : TripSchedule => g.times.length = 1 ∧ g.breakEndTime =
        formatTimeHHMM (accTime [] false [⟨4, "A", ⟨0, 0⟩⟩] 360 0 + 15))
      (generateTrip [] [⟨4, "A", ⟨0, 0⟩⟩] 360 false)) := by
  obtain ⟨h1, _, h3⟩ :=
    generateTrip_spec [] [⟨4, "A", ⟨0, 0⟩⟩] 360 false (by simp)
  exact ⟨by simpa using h1, by simpa using h3⟩

/-! ## Trip addition and deletion (C3, C4) -/

/-- `getMinStartTimeForVehicle`: the earliest admissible start time for
a new trip of a vehicle — `"06:00"` when the vehicle is unknown or has
no trips, otherwise the break-end time of its last trip. -/
def getMinStartTimeForVehicle (sched : VehicleSchedule) (vehicleId : String) : String :=
  match sched.vehicles.find? (fun v => v.id == vehicleId) with
  | none => "06:00"
  | some vehicle =>
    if vehicle.trips = [] then "06:00"
    else (vehicle.trips.getLastD default).breakEndTime

/-- Replace the first vehicle with the given id (the source looks the
vehicle up with `find` and mutates the found object in place). -/
def updateVehicle (vehicles : List Vehicle) (vehicleId : String)
    (f : Vehicle → Vehicle) : List Vehicle :=
  match vehicles with
  | [] => []
  | v :: rest =>
    if v.id = vehicleId then f v :: rest
    else v :: updateVehicle rest vehicleId f

/-- `addNewTrip`: validate the requested start time against the
vehicle's minimum and either reject with a user-facing message (second
component) or append a forward trip at the start time followed by its
reverse pair 15 minutes after the forward trip's end.  (The source's
additional `!this.line` early-return guard is the loaded-route
precondition; the embedding passes the loaded line's points directly.) -/
noncomputable def addNewTrip (line : List RoutePoint) (orderedStops : List BusStopData)
    (sched : VehicleSchedule) (selectedVehicleId newTripStartTime : String) :
    VehicleSchedule × Option String :=
  if newTripStartTime = "" ∨ selectedVehicleId = "" ∨ orderedStops.length = 0 then
    (sched, none)
  else
    match sched.vehicles.find? (fun v => v.id == selectedVehicleId) with
    | none => (sched, none)
    | some _ =>
      let startMinutes := parseTimeToMinutes newTripStartTime
      let minMinutes :=
        parseTimeToMinutes (getMinStartTimeForVehicle sched selectedVehicleId)
      if startMinutes < minMinutes then
        (sched, some ("Godzina rozpoczęcia nie może być wcześniejsza niż " ++
          getMinStartTimeForVehicle sched selectedVehicleId))
      else
        let forwardTrip := generateTrip line orderedStops (startMinutes : ℝ) false
        let forwardEndTime :=
          parseTimeToMinutes (forwardTrip.times.getLastD default).time
        let reverseStartTime : ℝ := (forwardEndTime : ℝ) + 15
        let reverseTrip := generateTrip line orderedStops.reverse reverseStartTime true
        ({sched with
            vehicles := updateVehicle sched.vehicles selectedVehicleId
              (fun v => {v with trips := v.trips ++ [forwardTrip, reverseTrip]})},
          none)

/-- `deleteTrip`: a trip may only be deleted together with its
forward/reverse pair (the even/odd index neighbor); a missing pair
aborts with a user-facing message; otherwise, after the user confirms,
both indices are removed, the higher one first. -/
def deleteTrip (sched : VehicleSchedule) (vehicleId : String) (tripIndex : ℕ)
    (confirmDelete : Bool) : VehicleSchedule × Option String :=
  match sched.vehicles.find? (fun v => v.id == vehicleId) with
  | none => (sched, none)
  | some vehicle =>
    if tripIndex < vehicle.trips.length then
      let pairIndex := if tripIndex % 2 = 0 then tripIndex + 1 else tripIndex - 1
      if pairIndex < vehicle.trips.length then
        if confirmDelete then
          let firstIndex := min tripIndex pairIndex
          let secondIndex := max tripIndex pairIndex
          ({sched with
              vehicles := updateVehicle sched.vehicles vehicleId
                (fun v => {v with
                  trips := (v.trips.eraseIdx secondIndex).eraseIdx firstIndex})},
            some "Cykl przejazdów został usunięty.")
        else (sched, none)
      else
        (sched,
          some "Nie można znaleźć pary przejazdu. Usuń pojedynczy przejazd ręcznie.")
    else (sched, none)

theorem xor_one_eq_pairIndex (n : ℕ) :
    n ^^^ 1 = if n % 2 = 0 then n + 1 else n - 1 := by
  rcases Nat.even_or_odd n with ⟨q, hq⟩ | ⟨q, hq⟩
  · subst hq
    rw [if_pos (by omega)]
    have h1 : q + q = Nat.bit false q := by simp [Nat.bit]; omega
    have h2 : (1 : ℕ) = Nat.bit true 0 := by simp [Nat.bit]
    rw [h1, h2, Nat.xor_bit]
    simp [Nat.bit]
  · subst hq
    rw [if_neg (by omega)]
    have h1 : 2 * q + 1 = Nat.bit true q := by simp [Nat.bit]
    have h2 : (1 : ℕ) = Nat.bit true 0 := by simp [Nat.bit]
    rw [h1, h2, Nat.xor_bit]
    simp [Nat.bit]

theorem xor_one_ne_self (n : ℕ) : n ^^^ 1 ≠ n := by
  intro h
  have h0 : n ^^^ 1 = n ^^^ 0 := by simpa using h
  have := Nat.xor_right_inj.mp h0
  omega

/-- C3: for a trip index that points at an existing trip, `deleteTrip`
removes the trip and its pair at index `tripIndex XOR 1` (higher index
erased first), leaving `trips.length` shorter by exactly 2 (so an even
length stays even); when the pair index holds no trip it fails with a
user-facing message and the schedule is completely unchanged. -/
theorem deleteTrip_spec (sched : VehicleSchedule) (vehicleId : String)
    (tripIndex : ℕ) (vehicle : Vehicle)
    (hfind : sched.vehicles.find? (fun v => v.id == vehicleId) = some vehicle)
    (hidx : tripIndex < vehicle.trips.length) :
    (if tripIndex % 2 = 0 then tripIndex + 1 else tripIndex - 1) = tripIndex ^^^ 1 ∧
    (tripIndex ^^^ 1 < vehicle.trips.length →
      deleteTrip sched vehicleId tripIndex true =
        ({sched with
            vehicles := updateVehicle sched.vehicles vehicleId
              (fun v => {v with
                trips := (v.trips.eraseIdx (max tripIndex (tripIndex ^^^ 1))).eraseIdx
                  (min tripIndex (tripIndex ^^^ 1))})},
          some "Cykl przejazdów został usunięty.") ∧
      ((vehicle.trips.eraseIdx (max tripIndex (tripIndex ^^^ 1))).eraseIdx
          (min tripIndex (tripIndex ^^^ 1))).length = vehicle.trips.length - 2 ∧
      (Even vehicle.trips.length →
        Even ((vehicle.trips.eraseIdx (max tripIndex (tripIndex ^^^ 1))).eraseIdx
          (min tripIndex (tripIndex ^^^ 1))).length)) ∧
    (¬ tripIndex ^^^ 1 < vehicle.trips.length →
      deleteTrip sched vehicleId tripIndex true =
        (sched,
          some "Nie można znaleźć pary przejazdu. Usuń pojedynczy przejazd ręcznie.")) := by
  have hxor : (if tripIndex % 2 = 0 then tripIndex + 1 else tripIndex - 1) =
      tripIndex ^^^ 1 := (xor_one_eq_pairIndex tripIndex).symm
  refine ⟨hxor, ?_, ?_⟩
  · intro hpair
    have hne : tripIndex ^^^ 1 ≠ tripIndex := xor_one_ne_self tripIndex
    have hmax : max tripIndex (tripIndex ^^^ 1) < vehicle.trips.length :=
      max_lt hidx hpair
    have hminlt : min tripIndex (tripIndex ^^^ 1) < vehicle.trips.length - 1 := by
      rcases lt_or_gt_of_ne hne with h | h
      · rw [min_eq_right h.le]; omega
      · rw [min_eq_left h.le]; omega
    have hmin : min tripIndex (tripIndex ^^^ 1) <
        (vehicle.trips.eraseIdx (max tripIndex (tripIndex ^^^ 1))).length := by
      rw [List.length_eraseIdx_of_lt hmax]
      exact hminlt
    have hlen : ((vehicle.trips.eraseIdx (max tripIndex (tripIndex ^^^ 1))).eraseIdx
        (min tripIndex (tripIndex ^^^ 1))).length = vehicle.trips.length - 2 := by
      rw [List.length_eraseIdx_of_lt hmin, List.length_eraseIdx_of_lt hmax]
      omega
    refine ⟨?_, hlen, ?_⟩
    · simp only [deleteTrip, hfind, if_pos hidx, hxor, if_pos hpair]
      simp
    · intro ⟨k, hk⟩
      rw [hlen]
      exact ⟨k - 1, by omega⟩
  · intro hpair
    simp only [deleteTrip, hfind, if_pos hidx, hxor, if_neg hpair]

def tripExA : TripSchedule := ⟨"1->2", [⟨1, "06:00"⟩, ⟨2, "06:10"⟩], "06:25"⟩

def tripExB : TripSchedule := ⟨"2->1", [⟨2, "06:25"⟩, ⟨1, "06:35"⟩], "06:50"⟩

def vehEx : Vehicle := ⟨"v1", "Pojazd 1", [tripExA, tripExB]⟩

def schedEx : VehicleSchedule := ⟨1, [vehEx]⟩

theorem deleteTrip_spec_witness :
    deleteTrip schedEx "v1" 0 true =
      ({schedEx with
          vehicles := updateVehicle schedEx.vehicles "v1"
            (fun v => {v with
              trips := (v.trips.eraseIdx (max 0 (0 ^^^ 1))).eraseIdx
                (min 0 (0 ^^^ 1))})},
        some "Cykl przejazdów został usunięty.") :=
  ((deleteTrip_spec schedEx "v1" 0 vehEx rfl (by decide)).2.1 (by decide)).1

/-- C4: with a non-empty start time, a known vehicle that already has a
trip, and a non-empty stop list, `addNewTrip` rejects a start time that
parses strictly below the minute value of the vehicle's last trip's
break-end time — emitting a user-facing message and leaving the schedule
untouched — and otherwise appends exactly the forward trip at the start
time followed by its reverse pair starting 15 minutes after the forward
trip's last stop time. -/
theorem addNewTrip_spec (line : List RoutePoint) (orderedStops : List BusStopData)
    (sched : VehicleSchedule) (vehicleId startTime : String) (vehicle : Vehicle)
    (hstart : startTime ≠ "") (hvid : vehicleId ≠ "")
    (hstops : orderedStops.length ≠ 0)
    (hfind : sched.vehicles.find? (fun v => v.id == vehicleId) = some vehicle)
    (htrips : vehicle.trips ≠ []) :
    (parseTimeToMinutes startTime <
        parseTimeToMinutes (vehicle.trips.getLastD default).breakEndTime →
      addNewTrip line orderedStops sched vehicleId startTime =
        (sched, some ("Godzina rozpoczęcia nie może być wcześniejsza niż " ++
          (vehicle.trips.getLastD default).breakEndTime))) ∧
    (parseTimeToMinutes (vehicle.trips.getLastD default).breakEndTime ≤
        parseTimeToMinutes startTime →
      addNewTrip line orderedStops sched vehicleId startTime =
        ({sched with
            vehicles := updateVehicle sched.vehicles vehicleId
              (fun v => {v with
                trips := v.trips ++
                  [generateTrip line orderedStops
                     ((parseTimeToMinutes startTime : ℤ) : ℝ) false,
                   generateTrip line orderedStops.reverse
                     (((parseTimeToMinutes
                         ((generateTrip line orderedStops
                             ((parseTimeToMinutes startTime : ℤ) : ℝ)
                             false).times.getLastD default).time : ℤ) : ℝ) + 15)
                     true]})},
          none)) := by
  have hmin : getMinStartTimeForVehicle sched vehicleId =
      (vehicle.trips.getLastD default).breakEndTime := by
    simp only [getMinStartTimeForVehicle, hfind, if_neg htrips]
  have hcond : ¬ (startTime = "" ∨ vehicleId = "" ∨ orderedStops.length = 0) := by
    simp [hstart, hvid, hstops]
  constructor
  · intro hlt
    simp only [addNewTrip, if_neg hcond, hfind, hmin, if_pos hlt]
  · intro hge
    simp only [addNewTrip, if_neg hcond, hfind, hmin, if_neg (not_lt.mpr hge)]

theorem addNewTrip_spec_witness :
    addNewTrip [] [⟨1, "A", ⟨0, 0⟩⟩] schedEx "v1" "06:00" =
      (schedEx, some ("Godzina rozpoczęcia nie może być wcześniejsza niż " ++
        (vehEx.trips.getLastD default).breakEndTime)) :=
  (addNewTrip_spec [] [⟨1, "A", ⟨0, 0⟩⟩] schedEx "v1" "06:00" vehEx
      (by decide) (by decide) (by simp) rfl (by decide)).1 (by decide)

/-! ## Map service: stops, nearest-stop search and snapping (C5, C10)

The map widget's metric `map.distance` is external library code the
specification describes only as the great-circle distance; it enters the
embedding as a parameter `dist`, constrained where needed by the
properties of a (pseudo)distance the specification's description
implies: `dist x x = 0`, nonnegativity, and indistinguishability of
zero-distance points. -/

/-- One `{areaId, coverage, populationServed}` entry of a stop's derived
area list. -/
structure StopAreaInfo where
  areaId : String
  coverage : ℝ
  populationServed : ℤ

/-- A stop as the map service holds it (the fields the embedded
operations read and write). -/
structure BusStop where
  id : ℕ
  name : String
  latLng : LatLng
  circle : Bool
  connectedRouteIds : List ℕ
  areas : List StopAreaInfo

/-- One step of `findNearestStop`'s loop over the stops: keep the
candidate only when it is strictly within the tolerance and strictly
closer than the best so far (`bestDist` starts as `Infinity`, modelled
by the `none` accumulator). -/
noncomputable def nsStep (dist : LatLng → LatLng → ℝ) (ll : LatLng) (maxMeters : ℝ)
    (best : Option (BusStop × ℝ)) (stop : BusStop) : Option (BusStop × ℝ) :=
  let d := dist ll stop.latLng
  match best with
  | none => if d < maxMeters then some (stop, d) else none
  | some (b, bestDist) =>
    if d < maxMeters ∧ d < bestDist then some (stop, d) else some (b, bestDist)

/-- `findNearestStop`'s loop, keeping the winning stop together with its
distance. -/
noncomputable def findNearestStopAux (dist : LatLng → LatLng → ℝ) (ll : LatLng)
    (maxMeters : ℝ) (stops : List BusStop) : Option (BusStop × ℝ) :=
  stops.foldl (nsStep dist ll maxMeters) none

/-- `findNearestStop`: the stop strictly within `maxMeters` of `ll` with
the strictly smallest distance (earlier stop wins ties), if any. -/
noncomputable def findNearestStop (dist : LatLng → LatLng → ℝ) (stops : List BusStop)
    (ll : LatLng) (maxMeters : ℝ) : Option BusStop :=
  (findNearestStopAux dist ll maxMeters stops).map Prod.fst

/-- The per-position body of `buildRoutePoints`: snap the raw position
to the nearest stop within 25 m (the point takes the stop's exact
position and id), otherwise keep the raw position untagged. -/
noncomputable def snapPoint (dist : LatLng → LatLng → ℝ) (stops : List BusStop)
    (ll : LatLng) : RoutePoint :=
  match findNearestStop dist stops ll 25 with
  | some nearest => ⟨nearest.latLng, some nearest.id⟩
  | none => ⟨ll, none⟩

/-- `buildRoutePoints`: snap every raw position of the drawn geometry.
(The source's loop also updates `connectedRouteIds` on the snapped
stops; that mutation never changes a stop's id or position, so the
produced points are the plain map of `snapPoint`; the membership update
is modelled separately below.) -/
noncomputable def buildRoutePoints (dist : LatLng → LatLng → ℝ) (stops : List BusStop)
    (latlngs : List LatLng) : List RoutePoint :=
  latlngs.map (snapPoint dist stops)

/-- `stop.connectedRouteIds.delete(routeId)` over every stop — the
clearing pass `buildRoutePoints` runs before snapping. -/
def clearConnectedRouteId (stops : List BusStop) (routeId : ℕ) : List BusStop :=
  stops.map fun s => {s with connectedRouteIds := s.connectedRouteIds.erase routeId}

/-- `nearest.connectedRouteIds.add(routeId)` (a `Set`, hence no
duplicate), applied to the stop with the given id. -/
def addConnectedRouteId (stops : List BusStop) (stopId routeId : ℕ) : List BusStop :=
  stops.map fun s =>
    if s.id = stopId then
      {s with connectedRouteIds :=
        if routeId ∈ s.connectedRouteIds then s.connectedRouteIds
        else s.connectedRouteIds ++ [routeId]}
    else s

/-- The stop-membership side effect of snapping one raw position: only a
found nearest stop gains the route's id. -/
noncomputable def snapPointConnect (dist : LatLng → LatLng → ℝ) (stops : List BusStop)
    (routeId : ℕ) (acc : List BusStop) (ll : LatLng) : List BusStop :=
  match findNearestStop dist stops ll 25 with
  | some nearest => addConnectedRouteId acc nearest.id routeId
  | none => acc

/-- `deriveStopIds` (spec §4.2): the non-null `stopId` values of a point
sequence, in order. -/
def deriveStopIds (points : List RoutePoint) : List ℕ :=
  points.filterMap (·.stopId)

/-- The `stopIds` computation as each assignment site in the source
writes it: `points.filter(p => p.stopId !== null).map(p => p.stopId!)`. -/
def stopIdsOfPoints (points : List RoutePoint) : List ℕ :=
  (points.filter (fun p => p.stopId ≠ none)).map (fun p => p.stopId.getD 0)

theorem stopIdsOfPoints_eq_deriveStopIds (points : List RoutePoint) :
    stopIdsOfPoints points = deriveStopIds points := by
  induction points with
  | nil => rfl
  | cons p rest ih =>
    cases hp : p.stopId with
    | none => simp [stopIdsOfPoints, deriveStopIds, List.filter, List.filterMap, hp] at ih ⊢
              exact ih
    | some i => simp [stopIdsOfPoints, deriveStopIds, List.filter, List.filterMap, hp] at ih ⊢
                exact ih

section NearestStopLemmas

variable (dist : LatLng → LatLng → ℝ) (ll : LatLng) (maxM : ℝ)

theorem nsFold_mono :
    ∀ (l : List BusStop) (b : BusStop) (bd : ℝ),
      ∃ p, l.foldl (nsStep dist ll maxM) (some (b, bd)) = some p ∧ p.2 ≤ bd := by
  intro l
  induction l with
  | nil => exact fun b bd => ⟨(b, bd), rfl, le_refl bd⟩
  | cons s t ih =>
    intro b bd
    by_cases hc : dist ll s.latLng < maxM ∧ dist ll s.latLng < bd
    · obtain ⟨p, hp, hple⟩ := ih s (dist ll s.latLng)
      exact ⟨p, by simpa [nsStep, if_pos hc] using hp, hple.trans hc.2.le⟩
    · obtain ⟨p, hp, hple⟩ := ih b bd
      exact ⟨p, by simpa [nsStep, if_neg hc] using hp, hple⟩

theorem nsFold_upper_bound :
    ∀ (l : List BusStop) (acc : Option (BusStop × ℝ)) (s : BusStop),
      s ∈ l → dist ll s.latLng < maxM →
      ∃ p, l.foldl (nsStep dist ll maxM) acc = some p ∧ p.2 ≤ dist ll s.latLng := by
  intro l
  induction l with
  | nil => intro _ s hs; exact absurd hs (List.not_mem_nil s)
  | cons a t ih =>
    intro acc s hs hlt
    rcases List.mem_cons.mp hs with rfl | hmem
    · cases acc with
      | none =>
        obtain ⟨p, hp, hple⟩ := nsFold_mono dist ll maxM t s (dist ll s.latLng)
        exact ⟨p, by simpa [nsStep, if_pos hlt] using hp, hple⟩
      | some q =>
        obtain ⟨b, bd⟩ := q
        by_cases hc : dist ll s.latLng < maxM ∧ dist ll s.latLng < bd
        · obtain ⟨p, hp, hple⟩ := nsFold_mono dist ll maxM t s (dist ll s.latLng)
          exact ⟨p, by simpa [nsStep, if_pos hc] using hp, hple⟩
        · have hbd : bd ≤ dist ll s.latLng := by
            rcases not_and_or.mp hc with h | h
            · exact absurd hlt h
            · exact not_lt.mp h
          obtain ⟨p, hp, hple⟩ := nsFold_mono dist ll maxM t b bd
          exact ⟨p, by simpa [nsStep, if_neg hc] using hp, hple.trans hbd⟩
    · exact ih (nsStep dist ll maxM acc a) s hmem hlt

theorem nsFold_basic :
    ∀ (l : List BusStop) (acc : Option (BusStop × ℝ)) (z : BusStop) (dz : ℝ),
      l.foldl (nsStep dist ll maxM) acc = some (z, dz) →
      acc = some (z, dz) ∨ (z ∈ l ∧ dz = dist ll z.latLng ∧ dz < maxM) := by
  intro l
  induction l with
  | nil => intro acc z dz h; exact Or.inl h
  | cons a t ih =>
    intro acc z dz h
    rcases ih (nsStep dist ll maxM acc a) z dz h with hstep | ⟨hmem, hdz, hlt⟩
    · cases acc with
      | none =>
        by_cases hc : dist ll a.latLng < maxM
        · rw [nsStep, if_pos hc] at hstep
          obtain ⟨rfl, rfl⟩ := Prod.mk.injEq .. ▸ Option.some.injEq .. ▸ hstep
          exact Or.inr ⟨List.mem_cons_self a t, rfl, hc⟩
        · rw [nsStep, if_neg hc] at hstep
          exact absurd hstep (by simp)
      | some q =>
        obtain ⟨b, bd⟩ := q
        by_cases hc : dist ll a.latLng < maxM ∧ dist ll a.latLng < bd
        · rw [nsStep, if_pos hc] at hstep
          obtain ⟨rfl, rfl⟩ := Prod.mk.injEq .. ▸ Option.some.injEq .. ▸ hstep
          exact Or.inr ⟨List.mem_cons_self a t, rfl, hc.1⟩
        · rw [nsStep, if_neg hc] at hstep
          exact Or.inl hstep
    · exact Or.inr ⟨List.mem_cons_of_mem a hmem, hdz, hlt⟩

theorem nsFold_decomp :
    ∀ (l : List BusStop) (acc : Option (BusStop × ℝ)) (w : BusStop) (dw : ℝ),
      l.foldl (nsStep dist ll maxM) acc = some (w, dw) →
      acc = some (w, dw) ∨
      ∃ l₁ l₂, l = l₁ ++ w :: l₂ ∧ dw = dist ll w.latLng ∧ dw < maxM ∧
        (∀ b bd, l₁.foldl (nsStep dist ll maxM) acc = some (b, bd) → dw < bd) := by
  intro l
  induction l with
  | nil => intro acc w dw h; exact Or.inl h
  | cons a t ih =>
    intro acc w dw h
    rcases ih (nsStep dist ll maxM acc a) w dw h with hstep | ⟨t₁, t₂, hsplit, hdw, hlt, hbeat⟩
    · cases acc with
      | none =>
        by_cases hc : dist ll a.latLng < maxM
        · rw [nsStep, if_pos hc] at hstep
          have ha : a = w ∧ dist ll a.latLng = dw := by
            constructor <;> [exact congrArg Prod.fst (Option.some.inj hstep);
              exact congrArg Prod.snd (Option.some.inj hstep)]
          obtain ⟨rfl, hda⟩ := ha
          refine Or.inr ⟨[], t, rfl, hda.symm, hda ▸ hc, ?_⟩
          intro b bd hb
          exact absurd hb (by simp)
        · rw [nsStep, if_neg hc] at hstep
          exact absurd hstep (by simp)
      | some q =>
        obtain ⟨b0, bd0⟩ := q
        by_cases hc : dist ll a.latLng < maxM ∧ dist ll a.latLng < bd0
        · rw [nsStep, if_pos hc] at hstep
          have ha : a = w ∧ dist ll a.latLng = dw := by
            constructor <;> [exact congrArg Prod.fst (Option.some.inj hstep);
              exact congrArg Prod.snd (Option.some.inj hstep)]
          obtain ⟨rfl, hda⟩ := ha
          refine Or.inr ⟨[], t, rfl, hda.symm, hda ▸ hc.1, ?_⟩
          intro b bd hb
          have hb' : (b0, bd0) = (b, bd) := Option.some.inj hb
          have : bd0 = bd := congrArg Prod.snd hb'
          rw [← this, ← hda]
          exact hc.2
        · rw [nsStep, if_neg hc] at hstep
          exact Or.inl hstep
    · refine Or.inr ⟨a :: t₁, t₂, by rw [hsplit]; rfl, hdw, hlt, ?_⟩
      intro b bd hb
      exact hbeat b bd hb

/-- Comparing two `prefix ++ element :: suffix` decompositions of the
same list. -/
theorem append_cons_compare {α : Type _} :
    ∀ (l₁ m₁ : List α) (w z : α) (l₂ m₂ : List α),
      l₁ ++ w :: l₂ = m₁ ++ z :: m₂ →
      (l₁ = m₁ ∧ w = z) ∨ z ∈ l₁ ∨ w ∈ m₁ := by
  intro l₁
  induction l₁ with
  | nil =>
    intro m₁ w z l₂ m₂ h
    cases m₁ with
    | nil =>
      simp only [List.nil_append, List.cons.injEq] at h
      exact Or.inl ⟨rfl, h.1⟩
    | cons a m' =>
      simp only [List.nil_append, List.cons_append, List.cons.injEq] at h
      exact Or.inr (Or.inr (h.1 ▸ List.mem_cons_self a m'))
  | cons b l' ih =>
    intro m₁ w z l₂ m₂ h
    cases m₁ with
    | nil =>
      simp only [List.cons_append, List.nil_append, List.cons.injEq] at h
      exact Or.inr (Or.inl (h.1 ▸ List.mem_cons_self b l'))
    | cons a m' =>
      simp only [List.cons_append, List.cons.injEq] at h
      rcases ih m' w z l₂ m₂ h.2 with ⟨heq, hwz⟩ | hz | hw
      · exact Or.inl ⟨by rw [h.1, heq], hwz⟩
      · exact Or.inr (Or.inl (List.mem_cons_of_mem b hz))
      · exact Or.inr (Or.inr (List.mem_cons_of_mem a hw))

/-- Core of snap idempotence: if a stop wins the nearest-stop search for
a raw position, it also wins the search run from its own position. -/
theorem findNearestStop_self (dist : LatLng → LatLng → ℝ) (stops : List BusStop)
    (ll : LatLng) (w : BusStop)
    (hd0 : ∀ x, dist x x = 0)
    (hnn : ∀ x y, 0 ≤ dist x y)
    (htr : ∀ x y, dist x y = 0 → ∀ z, dist z x = dist z y)
    (h : findNearestStop dist stops ll 25 = some w) :
    findNearestStop dist stops w.latLng 25 = some w := by
  obtain ⟨pw, haux0, hw⟩ := Option.map_eq_some'.mp h
  have haux : findNearestStopAux dist ll 25 stops = some (w, pw.2) := by
    rw [haux0, ← hw, Prod.mk.eta]
  set dw := pw.2 with hdwdef
  rcases nsFold_decomp dist ll 25 stops none w dw haux with hl | ⟨l₁, l₂, hsplit, hdw, hdlt, hbeat⟩
  · exact absurd hl (by simp)
  have hstrict : ∀ s ∈ l₁, dist ll s.latLng < 25 → dw < dist ll s.latLng := by
    intro s hs hlt
    obtain ⟨p, hp, hple⟩ := nsFold_upper_bound dist ll 25 l₁ none s hs hlt
    exact lt_of_lt_of_le (hbeat p.1 p.2 (by rw [← Prod.mk.eta (p := p)]; exact hp)) hple
  have hwmem : w ∈ stops := by
    rw [hsplit]
    exact List.mem_append_right l₁ (List.mem_cons_self w l₂)
  have hw0 : dist w.latLng w.latLng < 25 := by
    rw [hd0]; norm_num
  obtain ⟨p2, hp2, hp2le⟩ := nsFold_upper_bound dist w.latLng 25 stops none w hwmem hw0
  have hp2' : stops.foldl (nsStep dist w.latLng 25) none = some (p2.1, p2.2) := by
    rw [← Prod.mk.eta (p := p2)]; exact hp2
  rcases nsFold_basic dist w.latLng 25 stops none p2.1 p2.2 hp2' with hl2 | ⟨hzmem, hdz, hdzlt⟩
  · exact absurd hl2 (by simp)
  have hp2z : p2.2 = 0 := by
    have h1 : p2.2 ≤ 0 := by
      have := hp2le
      rwa [hd0] at this
    have h2 : 0 ≤ p2.2 := hdz ▸ hnn w.latLng p2.1.latLng
    exact le_antisymm h1 h2
  have hz0 : dist w.latLng p2.1.latLng = 0 := by rw [← hdz, hp2z]
  have hdllz : dist ll w.latLng = dist ll p2.1.latLng := htr w.latLng p2.1.latLng hz0 ll
  rcases nsFold_decomp dist w.latLng 25 stops none p2.1 p2.2 hp2' with hl3 | ⟨m₁, m₂, hsplit2, _, _, hbeat2⟩
  · exact absurd hl3 (by simp)
  have hwm : w ∉ m₁ := by
    intro hwm
    obtain ⟨q, hq, hqle⟩ := nsFold_upper_bound dist w.latLng 25 m₁ none w hwm hw0
    have hlt := hbeat2 q.1 q.2 (by rw [← Prod.mk.eta (p := q)]; exact hq)
    rw [hp2z] at hlt
    rw [hd0] at hqle
    exact absurd (lt_of_lt_of_le hlt hqle) (lt_irrefl 0)
  by_cases hzw : p2.1 = w
  · rw [findNearestStop, findNearestStopAux, hp2', hzw]
    rfl
  · exfalso
    have hcompare := append_cons_compare l₁ m₁ w p2.1 l₂ m₂ (by rw [← hsplit, ← hsplit2])
    rcases hcompare with ⟨_, hwz⟩ | hz | hw'
    · exact hzw hwz.symm
    · have hz25 : dist ll p2.1.latLng < 25 := by rw [← hdllz, ← hdw]; exact hdlt
      have := hstrict p2.1 hz hz25
      rw [← hdllz, ← hdw] at this
      exact lt_irrefl dw this
    · exact hwm hw'

theorem nsFold_none (l : List BusStop)
    (h : ∀ s ∈ l, ¬ dist ll s.latLng < maxM) :
    l.foldl (nsStep dist ll maxM) none = none := by
  induction l with
  | nil => rfl
  | cons a t ih =>
    have ha := h a (List.mem_cons_self a t)
    simp only [List.foldl_cons, nsStep, if_neg ha]
    exact ih fun s hs => h s (List.mem_cons_of_mem a hs)

end NearestStopLemmas

theorem snapPoint_idem (dist : LatLng → LatLng → ℝ) (stops : List BusStop) (ll : LatLng)
    (hd0 : ∀ x, dist x x = 0)
    (hnn : ∀ x y, 0 ≤ dist x y)
    (htr : ∀ x y, dist x y = 0 → ∀ z, dist z x = dist z y) :
    snapPoint dist stops (snapPoint dist stops ll).latLng = snapPoint dist stops ll := by
  cases hfind : findNearestStop dist stops ll 25 with
  | none => simp [snapPoint, hfind]
  | some w =>
    have h2 := findNearestStop_self dist stops ll w hd0 hnn htr hfind
    simp [snapPoint, hfind, h2]

/-- C5: snapping is idempotent — re-running `buildRoutePoints` over the
point positions produced by a first run, with the stops unchanged,
yields an identical derived `stopIds` sequence.  The external metric
`dist` is assumed to behave as a distance: zero on equal positions,
nonnegative, and not separating zero-distance positions. -/
theorem buildRoutePoints_idempotent (dist : LatLng → LatLng → ℝ) (stops : List BusStop)
    (latlngs : List LatLng)
    (hd0 : ∀ x, dist x x = 0)
    (hnn : ∀ x y, 0 ≤ dist x y)
    (htr : ∀ x y, dist x y = 0 → ∀ z, dist z x = dist z y) :
    stopIdsOfPoints (buildRoutePoints dist stops
        ((buildRoutePoints dist stops latlngs).map (·.latLng))) =
      stopIdsOfPoints (buildRoutePoints dist stops latlngs) := by
  have hpts : ∀ ls : List LatLng,
      buildRoutePoints dist stops ((buildRoutePoints dist stops ls).map (·.latLng)) =
        buildRoutePoints dist stops ls := by
    intro ls
    induction ls with
    | nil => rfl
    | cons a t ih =>
      simp only [buildRoutePoints, List.map_cons] at ih ⊢
      rw [snapPoint_idem dist stops a hd0 hnn htr, ih]
  rw [hpts]

/-- A single unconnected stop at the origin. -/
noncomputable def stopEx : BusStop := ⟨1, "Przystanek 1", ⟨0, 0⟩, true, [], []⟩

noncomputable def stopsEx : List BusStop := [stopEx]

theorem buildRoutePoints_idempotent_witness :
    stopIdsOfPoints (buildRoutePoints (fun _ _ => 0) stopsEx
        ((buildRoutePoints (fun _ _ => 0) stopsEx [⟨1, 1⟩]).map (·.latLng))) =
      stopIdsOfPoints (buildRoutePoints (fun _ _ => 0) stopsEx [⟨1, 1⟩]) :=
  buildRoutePoints_idempotent (fun _ _ => 0) stopsEx [⟨1, 1⟩]
    (fun _ => rfl) (fun _ _ => le_refl 0) (fun _ _ _ _ => rfl)

/-- C10: the snap tolerance boundary is exclusive — `findNearestStop`
only ever returns a stop strictly closer than the tolerance, and a raw
position all of whose stops lie at distance ≥ 25 m keeps its raw
position with a null `stopId` and adds the route's id to no stop. -/
theorem findNearestStop_strict (dist : LatLng → LatLng → ℝ) (stops : List BusStop)
    (ll : LatLng) (routeId : ℕ) (acc : List BusStop) :
    (∀ s, findNearestStop dist stops ll 25 = some s → dist ll s.latLng < 25) ∧
    ((∀ s ∈ stops, ¬ dist ll s.latLng < 25) →
      snapPoint dist stops ll = ⟨ll, none⟩ ∧
      snapPointConnect dist stops routeId acc ll = acc) := by
  constructor
  · intro s hs
    obtain ⟨ps, haux0, hw⟩ := Option.map_eq_some'.mp hs
    have haux : findNearestStopAux dist ll 25 stops = some (s, ps.2) := by
      rw [haux0, ← hw, Prod.mk.eta]
    rcases nsFold_basic dist ll 25 stops none s ps.2 haux with hl | ⟨_, hdz, hlt⟩
    · exact absurd hl (by simp)
    · exact hdz ▸ hlt
  · intro hfar
    have hnone : findNearestStop dist stops ll 25 = none := by
      rw [findNearestStop, findNearestStopAux, nsFold_none dist ll 25 stops hfar]
      rfl
    exact ⟨by simp [snapPoint, hnone], by simp [snapPointConnect, hnone]⟩

theorem findNearestStop_strict_witness :
    snapPoint (fun _ _ => 30) stopsEx ⟨2, 2⟩ = ⟨⟨2, 2⟩, none⟩ ∧
      snapPointConnect (fun _ _ => 30) stopsEx 7 stopsEx ⟨2, 2⟩ = stopsEx :=
  (findNearestStop_strict (fun _ _ => 30) stopsEx ⟨2, 2⟩ 7 stopsEx).2
    (fun _ _ => by norm_num)

/-! ## Routes as state and the `stopIds` invariant (C2) -/

/-- A route of the map service. -/
structure BusRoute where
  id : ℕ
  name : String
  stopIds : List ℕ
  points : List RoutePoint

/-- The spec's invariant: `stopIds` is exactly the derived non-null
`stopId` sequence of the route's points. -/
def routeInvariant (r : BusRoute) : Prop :=
  r.stopIds = deriveStopIds r.points

/-- `createRoute`: build the points by snapping the drawn geometry and
derive `stopIds` from them. -/
noncomputable def createRoute (dist : LatLng → LatLng → ℝ) (stops : List BusStop)
    (id : ℕ) (name : String) (latlngs : List LatLng) : BusRoute :=
  let points := buildRoutePoints dist stops latlngs
  let stopIds := stopIdsOfPoints points
  ⟨id, name, stopIds, points⟩

/-- The route's `pm:edit` handler: rebuild points from the edited
geometry and re-derive `stopIds`. -/
noncomputable def pmEditRoute (dist : LatLng → LatLng → ℝ) (stops : List BusStop)
    (route : BusRoute) (newLatlngs : List LatLng) : BusRoute :=
  let points := buildRoutePoints dist stops newLatlngs
  {route with points := points, stopIds := stopIdsOfPoints points}

/-- `rebuildAllRoutePoints`: re-snap every route from its polyline's
current geometry (`geom`) and re-derive every `stopIds`. -/
noncomputable def rebuildAllRoutePoints (dist : LatLng → LatLng → ℝ) (stops : List BusStop)
    (geom : BusRoute → List LatLng) (routes : List BusRoute) : List BusRoute :=
  routes.map fun route =>
    let points := buildRoutePoints dist stops (geom route)
    {route with points := points, stopIds := stopIdsOfPoints points}

/-- The route part of `removeStop`: null out the removed stop's id in
every route's points.  (`stopIds` is not touched by the source.) -/
def removeStopFromRoutes (routes : List BusRoute) (id : ℕ) : List BusRoute :=
  routes.map fun route =>
    {route with
      points := route.points.map fun pt =>
        if pt.stopId = some id then {pt with stopId := none} else pt}

/-- The route part of `loadFromLocalStorage`: points are rebuilt by
snapping the saved geometry, but `stopIds` is taken from the snapshot
when it carries one (`routeData.stopIds || derived`). -/
noncomputable def loadRoute (dist : LatLng → LatLng → ℝ) (stops : List BusStop)
    (savedStopIds : Option (List ℕ)) (latlngs : List LatLng)
    (id : ℕ) (name : String) : BusRoute :=
  let points := buildRoutePoints dist stops latlngs
  let stopIds := savedStopIds.getD (stopIdsOfPoints points)
  ⟨id, name, stopIds, points⟩

/-- C2 (amended): after route creation, a route-geometry edit, the
global edit-mode rebuild, and a snapshot load whose snapshot carries no
`stopIds`, every affected route satisfies
`stopIds = deriveStopIds points`.  (After `removeStop` the invariant can
fail — `stopIds` retains the removed id — and a snapshot load takes a
stored `stopIds` verbatim instead of re-deriving it; see the
counterexample.) -/
theorem stopIds_derived_spec (dist : LatLng → LatLng → ℝ) (stops : List BusStop) :
    (∀ (id : ℕ) (name : String) (latlngs : List LatLng),
      routeInvariant (createRoute dist stops id name latlngs)) ∧
    (∀ (route : BusRoute) (newLatlngs : List LatLng),
      routeInvariant (pmEditRoute dist stops route newLatlngs)) ∧
    (∀ (geom : BusRoute → List LatLng) (routes : List BusRoute),
      ∀ r ∈ rebuildAllRoutePoints dist stops geom routes, routeInvariant r) ∧
    (∀ (latlngs : List LatLng) (id : ℕ) (name : String),
      routeInvariant (loadRoute dist stops none latlngs id name)) := by
  refine ⟨?_, ?_, ?_, ?_⟩
  · intro id name latlngs
    exact stopIdsOfPoints_eq_deriveStopIds _
  · intro route newLatlngs
    exact stopIdsOfPoints_eq_deriveStopIds _
  · intro geom routes r hr
    obtain ⟨route, _, rfl⟩ := List.mem_map.mp hr
    exact stopIdsOfPoints_eq_deriveStopIds _
  · intro latlngs id name
    exact stopIdsOfPoints_eq_deriveStopIds _

/-- A route whose single snapped point carries stop id 1. -/
noncomputable def routeEx : BusRoute :=
  ⟨1, "Linia 1", [1], [⟨⟨0, 0⟩, some 1⟩, ⟨⟨1, 1⟩, none⟩]⟩

theorem stopIds_derived_spec_witness :
    routeInvariant (createRoute (fun _ _ => 0) stopsEx 1 "Linia 1" [⟨0, 0⟩]) ∧
      routeInvariant (pmEditRoute (fun _ _ => 0) stopsEx routeEx []) ∧
      routeInvariant (⟨1, "Linia 1", [], []⟩ : BusRoute) ∧
      routeInvariant (loadRoute (fun _ _ => 0) stopsEx none [] 2 "Linia 2") :=
  ⟨(stopIds_derived_spec (fun _ _ => 0) stopsEx).1 1 "Linia 1" [⟨0, 0⟩],
   (stopIds_derived_spec (fun _ _ => 0) stopsEx).2.1 routeEx [],
   (stopIds_derived_spec (fun _ _ => 0) stopsEx).2.2.1 (fun _ => []) [routeEx]
     ⟨1, "Linia 1", [], []⟩ (List.mem_singleton.mpr rfl),
   (stopIds_derived_spec (fun _ _ => 0) stopsEx).2.2.2 [] 2 "Linia 2"⟩

/-- C2 counterexample: `removeStop` nulls the stop id in the route's
points but leaves `stopIds` untouched, so afterwards `stopIds` is no
longer the derived sequence; similarly, a snapshot load keeps a stored
`stopIds` list that disagrees with the rebuilt points. -/
theorem stopIds_derived_counterexample :
    routeInvariant routeEx ∧
      removeStopFromRoutes [routeEx] 1 =
        [⟨1, "Linia 1", [1], [⟨⟨0, 0⟩, none⟩, ⟨⟨1, 1⟩, none⟩]⟩] ∧
      ¬ routeInvariant ⟨1, "Linia 1", [1], [⟨⟨0, 0⟩, none⟩, ⟨⟨1, 1⟩, none⟩]⟩ ∧
      ¬ routeInvariant (loadRoute (fun _ _ => 0) [] (some [9]) [] 3 "Linia 3") := by
  refine ⟨rfl, rfl, ?_, ?_⟩
  · intro h
    have h' : ([1] : List ℕ) = [] := h
    exact List.cons_ne_nil 1 [] h'
  · intro h
    have h' : ([9] : List ℕ) = [] := h
    exact List.cons_ne_nil 9 [] h'

/-! ## Stop/area coverage (C6, C7)

The polygon-clipping library (circle construction, intersection, area)
is external; it enters as a parameter `inter` producing, for a stop
position and an area, either a geometry failure (the source's caught
exception), a null intersection, or the intersection's surface in m².
The specification requires only that surfaces are nonnegative. -/

/-- Outcome of building the 300 m catchment disc of a stop position and
intersecting it with an area's polygon. -/
inductive InterResult where
  | geomFailure
  | disjoint
  | ok (intersectionArea : ℝ)

/-- An area as the map service holds it (the fields the embedded
operations read). -/
structure AreaPolygon where
  id : String
  name : Option String
  areaM2 : ℝ
  population : ℝ
  highPercentageOfElderly : Bool
  servingLines : List String
  populationDensity : ℝ
  publicTransportUsagePercent : ℝ
  destinationIds : List ℕ

/-- `calculateStopAreaCoverage`: percentage of the area's surface inside
the stop's 300 m catchment disc — 0 without a circle, on a caught
geometry failure or a null intersection, otherwise
`intersectionArea / areaM2 * 100` capped at 100. -/
noncomputable def calculateStopAreaCoverage (inter : LatLng → AreaPolygon → InterResult)
    (stop : BusStop) (area : AreaPolygon) : ℝ :=
  if stop.circle = false then 0
  else
    match inter stop.latLng area with
    | .geomFailure => 0
    | .disjoint => 0
    | .ok intersectionArea => min (intersectionArea / area.areaM2 * 100) 100

/-- C6: `calculateStopAreaCoverage` is total (never throws) and always
lands in [0,100]; it is 0 when the stop has no catchment circle, when
the polygon intersection is empty, when the geometry operation fails,
and when the area's surface is zero. -/
theorem stopAreaCoverage_spec (inter : LatLng → AreaPolygon → InterResult)
    (stop : BusStop) (area : AreaPolygon)
    (hA : 0 ≤ area.areaM2)
    (hI : ∀ x, inter stop.latLng area = .ok x → 0 ≤ x) :
    0 ≤ calculateStopAreaCoverage inter stop area ∧
    calculateStopAreaCoverage inter stop area ≤ 100 ∧
    (area.areaM2 = 0 → calculateStopAreaCoverage inter stop area = 0) ∧
    (stop.circle = false → calculateStopAreaCoverage inter stop area = 0) ∧
    (inter stop.latLng area = .disjoint → calculateStopAreaCoverage inter stop area = 0) ∧
    (inter stop.latLng area = .geomFailure → calculateStopAreaCoverage inter stop area = 0) := by
  by_cases hcirc : stop.circle = false
  · simp only [calculateStopAreaCoverage, if_pos hcirc]
    norm_num
  · cases hi : inter stop.latLng area with
    | geomFailure =>
      simp only [calculateStopAreaCoverage, if_neg hcirc, hi]
      norm_num
    | disjoint =>
      simp only [calculateStopAreaCoverage, if_neg hcirc, hi]
      norm_num
    | ok x =>
      have hx : 0 ≤ x := hI x hi
      have hmul : 0 ≤ x / area.areaM2 * 100 :=
        mul_nonneg (div_nonneg hx hA) (by norm_num)
      simp only [calculateStopAreaCoverage, if_neg hcirc, hi]
      refine ⟨le_min hmul (by norm_num), min_le_right _ _, ?_, ?_, ?_, ?_⟩
      · intro h0
        rw [h0, div_zero, zero_mul]
        exact min_eq_left (by norm_num)
      · intro h
        exact absurd h hcirc
      · intro h
        exact InterResult.noConfusion h
      · intro h
        exact InterResult.noConfusion h

/-- Example area of 1 km² and 500 inhabitants. -/
noncomputable def areaEx : AreaPolygon :=
  ⟨"area_1", none, 1000000, 500, false, [], 0.0005, 5, []⟩

theorem stopAreaCoverage_spec_witness :
    0 ≤ calculateStopAreaCoverage (fun _ _ => InterResult.disjoint) stopEx areaEx ∧
      calculateStopAreaCoverage (fun _ _ => InterResult.disjoint) stopEx areaEx = 0 :=
  ⟨(stopAreaCoverage_spec (fun _ _ => InterResult.disjoint) stopEx areaEx
      (by norm_num [areaEx]) (fun x h => InterResult.noConfusion h)).1,
   (stopAreaCoverage_spec (fun _ _ => InterResult.disjoint) stopEx areaEx
      (by norm_num [areaEx]) (fun x h => InterResult.noConfusion h)).2.2.2.2.1 rfl⟩

/-- One iteration of `updateStopAreaInfo`'s loop over the areas: push an
entry when the computed coverage exceeds the 0.1 % noise floor.
(`calculateStopAreaCoverage` reads only the stop's position and circle,
which the loop never changes, so the already-pushed entries do not
influence later coverages.) -/
noncomputable def stopAreaStep (inter : LatLng → AreaPolygon → InterResult)
    (stop : BusStop) (acc : List StopAreaInfo) (area : AreaPolygon) : List StopAreaInfo :=
  let coverage := calculateStopAreaCoverage inter stop area
  if coverage > 0.1 then
    acc ++ [⟨area.id, (jsRound (coverage * 100) : ℝ) / 100,
      jsRound (area.population * coverage / 100)⟩]
  else acc

/-- `updateStopAreaInfo`: reset the stop's `areas` list and rebuild it
from all areas' freshly computed coverages. -/
noncomputable def updateStopAreaInfo (inter : LatLng → AreaPolygon → InterResult)
    (stop : BusStop) (areas : List AreaPolygon) : BusStop :=
  {stop with areas := areas.foldl (stopAreaStep inter stop) []}

/-- The `areas` list `updateStopAreaInfo` must produce, written as the
specification words it: one entry per area whose coverage exceeds the
0.1 % noise floor, carrying the coverage rounded to two decimals and
`populationServed = round(population * coverage / 100)`. -/
noncomputable def updateStopAreaInfoSpec (inter : LatLng → AreaPolygon → InterResult)
    (stop : BusStop) (areas : List AreaPolygon) : List StopAreaInfo :=
  areas.filterMap fun area =>
    let coverage := calculateStopAreaCoverage inter stop area
    if coverage > 0.1 then
      some ⟨area.id, (jsRound (coverage * 100) : ℝ) / 100,
        jsRound (area.population * coverage / 100)⟩
    else none

theorem stopAreaStep_foldl (inter : LatLng → AreaPolygon → InterResult) (stop : BusStop) :
    ∀ (areas : List AreaPolygon) (acc : List StopAreaInfo),
      areas.foldl (stopAreaStep inter stop) acc =
        acc ++ updateStopAreaInfoSpec inter stop areas := by
  intro areas
  induction areas with
  | nil => intro acc; simp [updateStopAreaInfoSpec]
  | cons a t ih =>
    intro acc
    simp only [List.foldl_cons, stopAreaStep]
    by_cases hc : calculateStopAreaCoverage inter stop a > 0.1
    · rw [if_pos hc, ih]
      have hspec : updateStopAreaInfoSpec inter stop (a :: t) =
          (⟨a.id, (jsRound (calculateStopAreaCoverage inter stop a * 100) : ℝ) / 100,
            jsRound (a.population * calculateStopAreaCoverage inter stop a / 100)⟩ :
              StopAreaInfo) :: updateStopAreaInfoSpec inter stop t := by
        simp only [updateStopAreaInfoSpec, List.filterMap_cons]
        rw [if_pos hc]
      rw [hspec]
      simp
    · rw [if_neg hc, ih]
      have hspec : updateStopAreaInfoSpec inter stop (a :: t) =
          updateStopAreaInfoSpec inter stop t := by
        simp only [updateStopAreaInfoSpec, List.filterMap_cons]
        rw [if_neg hc]
      rw [hspec]

/-- C7: `updateStopAreaInfo` replaces the stop's entire `areas` list
with exactly the specification's list — one entry (rounded coverage,
rounded population served) per area whose computed coverage exceeds
0.1 %, in area order, and no entry for areas at or below the floor. -/
theorem updateStopAreaInfo_spec (inter : LatLng → AreaPolygon → InterResult)
    (stop : BusStop) (areas : List AreaPolygon) :
    (updateStopAreaInfo inter stop areas).areas =
      updateStopAreaInfoSpec inter stop areas := by
  show areas.foldl (stopAreaStep inter stop) [] = _
  rw [stopAreaStep_foldl]
  simp

end SmartTransport
